import Mathlib

/-!
Shallow embedding of the trade-text extraction core: the number and date
normalizers, the six format detectors, the acceptance gate, the default
merge and the cascade dispatcher, translated from the source. JavaScript
numbers are modelled as rationals, with the not-a-number value modelled
as the missing case of an Option. The clock reading used by the default
template is passed to the dispatcher as an explicit argument. Regular
expression search is modelled by a small backtracking matcher over a
first-order pattern syntax; case folding is modelled on ASCII letters.
-/

set_option maxHeartbeats 4000000

/-- JavaScript number results: some value, or none for not-a-number. -/
abbrev JNum := Option ℚ

def lowAscii (c : Char) : Char :=
  if 'A' ≤ c ∧ c ≤ 'Z' then Char.ofNat (c.toNat + 32) else c

def upAscii (c : Char) : Char :=
  if 'a' ≤ c ∧ c ≤ 'z' then Char.ofNat (c.toNat - 32) else c

def isWsC (c : Char) : Bool :=
  c == ' ' || c == '\t' || c == '\n' || c == '\r'

def digitVal (c : Char) : Nat := c.toNat - 48

def natOfDigits (l : List Char) : Nat :=
  l.foldl (fun a c => a * 10 + digitVal c) 0

/-- Substring test, modelling the JavaScript includes method. -/
def containsSub (n : List Char) : List Char → Bool
  | [] => n.isEmpty
  | c :: t => n.isPrefixOf (c :: t) || containsSub n t

def hasSub (s : String) (n : String) : Bool := containsSub n.data s.data

/-- Replace the first occurrence of a character, modelling the
single-replacement form of the JavaScript replace method. -/
def replFirst (a b : Char) : List Char → List Char
  | [] => []
  | c :: t => if c == a then b :: t else c :: replFirst a b t

/-- Index of the last occurrence of a character, if any. -/
def lastIdxAux (c : Char) : List Char → Option Nat
  | [] => none
  | x :: t =>
    match lastIdxAux c t with
    | some i => some (i + 1)
    | none => if x == c then some 0 else none

/-- Modelling the JavaScript lastIndexOf method, -1 when absent. -/
def lastIdx (c : Char) (l : List Char) : Int :=
  match lastIdxAux c l with
  | none => -1
  | some i => (i : Int)

/-- Split on a separator character, modelling the JavaScript split method. -/
def splitCh (sep : Char) : List Char → List (List Char)
  | [] => [[]]
  | c :: t =>
    if c == sep then [] :: splitCh sep t
    else
      match splitCh sep t with
      | h :: r => (c :: h) :: r
      | [] => [[c]]

/-- Strip leading and trailing whitespace, modelling the trim method. -/
def trimWs (l : List Char) : List Char :=
  ((l.dropWhile isWsC).reverse.dropWhile isWsC).reverse

/-- Character classes occurring in the source regular expressions. -/
inductive CC where
  | digit
  | ws
  | notNl
  | alpha
  | numc
  | numcm
  | numcpm
  deriving DecidableEq

def CC.eval : CC → Char → Bool
  | .digit, c => c.isDigit
  | .ws, c => isWsC c
  | .notNl, c => !(c == '\n')
  | .alpha, c => ('A' ≤ c && c ≤ 'Z') || ('a' ≤ c && c ≤ 'z')
  | .numc, c => c.isDigit || c == '.' || c == ','
  | .numcm, c => c.isDigit || c == '.' || c == ',' || c == '-'
  | .numcpm, c => c.isDigit || c == '.' || c == ',' || c == '-' || c == '+'

/-- First-order pattern syntax covering the source regular expressions:
literals (case-sensitive or ASCII case-insensitive), greedy bounded
repetition of a character class, sequencing, ordered alternation, greedy
option, and numbered capture groups. -/
inductive Pat where
  | eps
  | lit (s : List Char)
  | liti (s : List Char)
  | cls (cc : CC) (lo : Nat) (hi : Option Nat)
  | seq (a b : Pat)
  | alt (a b : Pat)
  | opt (a : Pat)
  | grp (i : Nat) (a : Pat)

abbrev Caps := List (Nat × List Char)

def chEqCI (ci : Bool) (a b : Char) : Bool :=
  if ci then lowAscii a == lowAscii b else a == b

def litHere (ci : Bool) : List Char → List Char → Bool
  | [], _ => true
  | _ :: _, [] => false
  | p :: ps, c :: cs => chEqCI ci p c && litHere ci ps cs

/-- All ways the pattern can match a leading span of the input, as pairs
of consumed length and captures, in backtracking priority order (greedy
repetitions longest first, alternatives left first). -/
def mrun : Pat → List Char → List (Nat × Caps)
  | .eps, _ => [(0, [])]
  | .lit p, s => if litHere false p s then [(p.length, [])] else []
  | .liti p, s => if litHere true p s then [(p.length, [])] else []
  | .cls cc lo hi, s =>
    let tw := (s.takeWhile cc.eval).length
    let m := match hi with | none => tw | some h => Nat.min tw h
    if m < lo then []
    else (List.range (m + 1 - lo)).map (fun k => (m - k, ([] : Caps)))
  | .seq a b, s =>
    (mrun a s).flatMap (fun pr =>
      (mrun b (s.drop pr.1)).map (fun qr => (pr.1 + qr.1, pr.2 ++ qr.2)))
  | .alt a b, s => mrun a s ++ mrun b s
  | .opt a, s => mrun a s ++ [(0, ([] : Caps))]
  | .grp i a, s => (mrun a s).map (fun pr => (pr.1, (i, s.take pr.1) :: pr.2))

/-- Leftmost search: first index at which the pattern matches, with the
match length and captures of the highest-priority match there. -/
def searchAux (p : Pat) (s : List Char) (idx : Nat) : Option (Nat × Nat × Caps) :=
  match mrun p s with
  | r :: _ => some (idx, r.1, r.2)
  | [] =>
    match s with
    | [] => none
    | _ :: t => searchAux p t (idx + 1)

def searchStr (p : Pat) (s : String) : Option (Nat × Nat × Caps) :=
  searchAux p s.data 0

def capOf (c : Caps) (i : Nat) : Option (List Char) :=
  (c.find? (fun pr => pr.1 == i)).map (fun pr => pr.2)

/-- Capture group i of the first match of the pattern in the string. -/
def mGet (p : Pat) (i : Nat) (s : String) : Option (List Char) :=
  (searchStr p s).bind (fun r => capOf r.2.2 i)

def testPat (p : Pat) (s : String) : Bool := (searchStr p s).isSome

/-- Capture group i of an anchored match at the start of the string. -/
def mGetA (p : Pat) (i : Nat) (s : String) : Option (List Char) :=
  ((mrun p s.data).head?).bind (fun r => capOf r.2 i)

/-- Modelling matchAll with a global flag: repeated search, resuming
after each match (advancing at least one character). -/
def searchAllAux (p : Pat) (s : List Char) : Nat → List Caps
  | 0 => []
  | f + 1 =>
    match searchAux p s 0 with
    | none => []
    | some (i, n, c) => c :: searchAllAux p (s.drop (i + Nat.max n 1)) f

def searchAll (p : Pat) (s : String) : List Caps :=
  searchAllAux p s.data (s.data.length + 1)

def pseq : List Pat → Pat
  | [] => .eps
  | [p] => p
  | p :: ps => .seq p (pseq ps)

def L (s : String) : Pat := .lit s.data

def Li (s : String) : Pat := .liti s.data

/-- The frequent source fragment of whitespace, newline, whitespace. -/
def gapNl : Pat := pseq [.cls .ws 0 none, .lit ['\n'], .cls .ws 0 none]

def ws0 : Pat := .cls .ws 0 none

def ws1 : Pat := .cls .ws 1 none

def d2 : Pat := .cls .digit 2 (some 2)

def d4 : Pat := .cls .digit 4 (some 4)

/-- ISO date-time shape with a single space separator. -/
def isoDT : Pat :=
  pseq [d4, L "-", d2, L "-", d2, .cls .ws 1 (some 1), d2, L ":", d2, L ":", d2]

/-- ISO date-time shape with one or more whitespace separators. -/
def isoDTp : Pat :=
  pseq [d4, L "-", d2, L "-", d2, ws1, d2, L ":", d2, L ":", d2]

/-- Modelling the JavaScript parseFloat magnitude grammar on the cleaned
alphabet: leading digits, optional dot and fraction digits; none when no
digit is consumed. -/
def pfMag (r : List Char) : Option ℚ :=
  let ds := r.takeWhile Char.isDigit
  let r2 := r.drop ds.length
  if r2.head? = some '.' then
    let fs := (r2.drop 1).takeWhile Char.isDigit
    if ds.isEmpty ∧ fs.isEmpty then none
    else some (Rat.divInt ((natOfDigits ds * 10 ^ fs.length + natOfDigits fs : Nat) : Int)
                          ((10 ^ fs.length : Nat) : Int))
  else if ds.isEmpty then none else some (mkRat ((natOfDigits ds : Nat) : Int) 1)

/-- Modelling JavaScript parseFloat: optional sign, then magnitude,
ignoring trailing residue; none models the not-a-number result. -/
def parseFloat (s : List Char) : Option ℚ :=
  if s.head? = some '-' then (pfMag (s.drop 1)).map (fun q => -q)
  else if s.head? = some '+' then pfMag (s.drop 1)
  else pfMag s

/-- Date-shape guard of parseNumber: four digits, dash, two digits,
dash, two digits at the start of the string. -/
def guardYMD : List Char → Bool
  | a :: b :: c :: d :: '-' :: e :: f :: '-' :: g :: h :: _ =>
    a.isDigit && b.isDigit && c.isDigit && d.isDigit &&
    e.isDigit && f.isDigit && g.isDigit && h.isDigit
  | _ => false

/-- Date-shape guard of parseNumber: two digits, slash, two digits,
slash, four digits at the start of the string. -/
def guardDMY : List Char → Bool
  | a :: b :: '/' :: c :: d :: '/' :: e :: f :: g :: h :: _ =>
    a.isDigit && b.isDigit && c.isDigit && d.isDigit &&
    e.isDigit && f.isDigit && g.isDigit && h.isDigit
  | _ => false

def dateGuard (s : List Char) : Bool := guardYMD s || guardDMY s

/-- Residue of the input after removing every character that is not a
digit, dot, comma or dash. -/
def stripNum (s : String) : List Char :=
  s.data.filter (fun c => c.isDigit || c == '.' || c == ',' || c == '-')

/-- Separator disambiguation of parseNumber: with both comma and dot the
later one is the decimal separator; with only commas, the length of the
part after the final comma decides between decimal comma and thousands
separator. -/
def sepHandle (cleaned : List Char) : List Char :=
  let lc := lastIdx ',' cleaned
  let ld := lastIdx '.' cleaned
  if lc > -1 ∧ ld > -1 then
    if lc > ld then replFirst ',' '.' (cleaned.filter (fun c => !(c == '.')))
    else cleaned.filter (fun c => !(c == ','))
  else if lc > -1 then
    let lastPart := ((splitCh ',' cleaned).getLast?).getD []
    if lastPart.length ≠ 3 then cleaned.map (fun c => if c == ',' then '.' else c)
    else cleaned.filter (fun c => !(c == ','))
  else cleaned

/-- The number normalizer of the source: empty input and date-shaped
input give 0, otherwise strip, handle the sign, disambiguate separators
and parse as a float. -/
def parseNumber (str : String) : JNum :=
  if str.data.isEmpty then some 0
  else if dateGuard str.data then some 0
  else
    let cleaned := stripNum str
    let isNeg := cleaned.head? = some '-'
    let cleaned1 := if isNeg then cleaned.drop 1 else cleaned
    let cleaned2 := sepHandle cleaned1
    (parseFloat cleaned2).map (fun q => if isNeg then -q else q)

def pnum (l : List Char) : JNum := parseNumber (String.mk l)

/-- Absolute value on JavaScript numbers, not-a-number passing through. -/
def jabs (x : JNum) : JNum := x.map (fun q => if q < 0 then -q else q)

/-- Pattern of the custom date matcher: one or two digit day and month,
four digit year, time, and an optional meridiem token. -/
def customDatePat : Pat :=
  pseq [.grp 1 (.cls .digit 1 (some 2)), L "/",
        .grp 2 (.cls .digit 1 (some 2)), L "/",
        .grp 3 d4, ws1,
        .grp 4 (.cls .digit 1 (some 2)), L ":",
        .grp 5 d2, L ":",
        .grp 6 d2, ws0,
        .opt (.grp 7 (.alt (Li "SA") (Li "CH")))]

/-- Meridiem adjustment of the custom date parser: the afternoon token
adds 12 below 12, the morning token maps 12 to 0. -/
def adjustHour (h : Nat) (mer : Option (List Char)) : Nat :=
  match mer with
  | none => h
  | some m =>
    let mu := m.map upAscii
    let h1 := if mu = ['C', 'H'] ∧ h < 12 then h + 12 else h
    if mu = ['S', 'A'] ∧ h1 = 12 then 0 else h1

def pad2 (l : List Char) : List Char :=
  if l.length < 2 then List.replicate (2 - l.length) '0' ++ l else l

/-- The date normalizer of the source: match the day, month, year, time
and optional meridiem, convert to 24 hour time and render the canonical
form with day, month and hour zero padded to width 2. -/
def parseCustomDate (dateStr : String) : Option String :=
  match searchStr customDatePat dateStr with
  | none => none
  | some r =>
    match capOf r.2.2 1, capOf r.2.2 2, capOf r.2.2 3,
          capOf r.2.2 4, capOf r.2.2 5, capOf r.2.2 6 with
    | some day, some month, some year, some hour, some minute, some second =>
      let h := adjustHour (natOfDigits hour) (capOf r.2.2 7)
      some (String.mk (year ++ ['-'] ++ pad2 month ++ ['-'] ++ pad2 day ++ ['T'] ++
            pad2 (Nat.repr h).data ++ [':'] ++ minute ++ [':'] ++ second))
    | _, _, _, _, _, _ => none


def numc1 : Pat := .cls .numc 1 none

def numcm1 : Pat := .cls .numcm 1 none

def numcpm1 : Pat := .cls .numcpm 1 none

def alpha1 : Pat := .cls .alpha 1 none

def dig1 : Pat := .cls .digit 1 none

def coinVNPat : Pat := pseq [Li "Coin", gapNl, .grp 1 alpha1]

def qtyVNPat : Pat := pseq [Li "SL", gapNl, .grp 1 numc1]

def openVNPat : Pat := pseq [Li "Giá Mở", gapNl, .grp 1 numc1]

def closeVNPat : Pat := pseq [Li "Giá Đóng", gapNl, .grp 1 numc1]

def dateVNPat : Pat :=
  pseq [Li "Ngày", gapNl,
        .grp 1 (pseq [d2, L "/", d2, L "/", d4, ws1, d2, L ":", d2, L ":", d2,
                      ws0, .opt (.alt (Li "SA") (Li "CH"))])]

def feeVNPat : Pat := pseq [Li "Phí", gapNl, .grp 1 numcm1]

def pnlAnyPat : Pat := pseq [Li "PnL", gapNl, .grp 1 numcpm1]

def levVNPat : Pat := pseq [Li "Đòn Bẩy", gapNl, .grp 1 dig1]

def stackedTestPat : Pat :=
  pseq [Li "Open Time", gapNl, Li "Opening Average Price", gapNl, Li "Close Time"]

def hdrStackPat : Pat :=
  pseq [Li "Open Time", gapNl, Li "Opening Average Price", gapNl, Li "Close Time",
        gapNl, .grp 1 isoDT, gapNl, .grp 2 numc1, gapNl, .grp 3 isoDT]

def closeStackPat : Pat :=
  pseq [Li "Closing Average Price", gapNl, Li "Position Size", gapNl,
        Li "Funding Fee", gapNl, .grp 1 numc1, gapNl, .grp 2 numc1, ws0, .grp 3 alpha1]

def feeStackPat : Pat :=
  pseq [Li "Fees", gapNl, Li "Position PnL", gapNl, Li "Realized PnL", gapNl,
        .grp 1 numcm1, .cls .notNl 0 none, L "\n", ws0, .grp 2 numcpm1]

def openBlockPat : Pat :=
  pseq [Li "Open Time", gapNl, Li "Opening Average Price", gapNl,
        .grp 1 isoDT, gapNl, .grp 2 numc1]

def closeBlockPat : Pat :=
  pseq [Li "Close Time", gapNl, Li "Closing Average Price", gapNl,
        .grp 1 isoDT, gapNl, .grp 2 numc1]

def qtyBlockPat : Pat :=
  pseq [Li "Position Size", gapNl, Li "Funding Fee", gapNl,
        .grp 1 numc1, ws0, .grp 2 alpha1]

def feeBlockPat : Pat :=
  pseq [Li "Fees", gapNl, Li "Position PnL", gapNl,
        .grp 1 numcm1, .cls .notNl 0 none, L "\n", ws0, .grp 2 numcpm1]

def coinUsdtPat : Pat := pseq [.grp 1 alpha1, Li "USDT"]

def levXPat : Pat := pseq [.grp 1 dig1, L "X"]

def levXiPat : Pat := pseq [.grp 1 dig1, Li "X"]

def stdOpenPat : Pat := pseq [Li "Opening Average Price", gapNl, .grp 1 numc1]

def isoSearchPat : Pat := .grp 1 isoDTp

def stdClosePat : Pat := pseq [Li "Closing Average Price", gapNl, .grp 1 numc1]

def volPat : Pat :=
  pseq [.alt (Li "Volume") (Li "Position Size"), ws0, .opt (L "\n"), ws0,
        .grp 1 numc1, ws1, .grp 2 alpha1]

def feesEnPat : Pat := pseq [Li "Fees", gapNl, .grp 1 numcm1]

def timeOpenedPat : Pat := pseq [Li "Time Opened", gapNl, .grp 1 isoDT]

def entryPricePat : Pat := pseq [Li "Entry Price", gapNl, .grp 1 numc1]

def timeClosedPat : Pat := pseq [Li "Time Closed", gapNl, .grp 1 isoDT]

def closePricePat : Pat := pseq [Li "Close Price", gapNl, .grp 1 numc1]

def qtyCapPat : Pat := .alt (Li "Max held") (pseq [Li "Closed Qty", .opt (L ".")])

def qtyMobilePat : Pat := pseq [qtyCapPat, gapNl, .grp 1 numc1]

def coinUnderQtyPat : Pat := pseq [qtyCapPat, gapNl, numc1, gapNl, .grp 1 alpha1]

def closingPnlPat : Pat := pseq [Li "Closing PnL", gapNl, .grp 1 numcpm1]

def posPnlPat : Pat := pseq [Li "Position PnL", gapNl, .grp 1 numcpm1]

def feesOptSPat : Pat := pseq [Li "Fee", .opt (Li "s"), gapNl, .grp 1 numcm1]

def exitPricePat : Pat := pseq [Li "Exit Price", gapNl, .grp 1 numc1]

def openTimeWebPat : Pat := pseq [Li "Open Time", gapNl, .grp 1 isoDT]

/-- A partial trade record: each field is present when the detector
assigned the key. A present openTime or closeTime may itself hold the
absence value produced by the date normalizer. -/
structure PTrade where
  coin : Option String := none
  quantity : Option JNum := none
  openPrice : Option JNum := none
  closePrice : Option JNum := none
  openTime : Option (Option String) := none
  closeTime : Option (Option String) := none
  fee : Option JNum := none
  pnl : Option JNum := none
  leverage : Option Int := none
  deriving DecidableEq

/-- The total trade record returned on the cascade path after the
default merge. -/
structure Trade where
  uid : String
  leverage : Int
  openPrice : JNum
  openTime : Option String
  quantity : JNum
  coin : String
  fee : JNum
  pnl : JNum
  closePrice : Option JNum
  closeTime : Option (Option String)
  deriving DecidableEq

def sGet (o : Option (List Char)) : Option String := o.map String.mk

def tGet (o : Option (List Char)) : Option (Option String) :=
  o.map (fun l => some (String.mk (replFirst ' ' 'T' l)))

def dGet (o : Option (List Char)) : Option (Option String) :=
  o.map (fun l => parseCustomDate (String.mk l))

def nGet (o : Option (List Char)) : Option JNum := o.map pnum

def fGet (o : Option (List Char)) : Option JNum := o.map (fun l => jabs (pnum l))

def lGet (o : Option (List Char)) (dflt : Int) : Option Int :=
  some ((o.map (fun l => (natOfDigits l : Int))).getD dflt)

/-- Detector 2, localized caption layout, anchored on the localized
opened-price or closed-price caption. -/
def parseFormatVN (text : String) : Option PTrade :=
  if !(hasSub text "Giá Mở") && !(hasSub text "Giá Đóng") then none
  else
    let dates := searchAll dateVNPat text
    some {
      coin := sGet (mGet coinVNPat 1 text)
      quantity := nGet (mGet qtyVNPat 1 text)
      openPrice := nGet (mGet openVNPat 1 text)
      closePrice := nGet (mGet closeVNPat 1 text)
      openTime := dGet (dates.head?.bind (fun c => capOf c 1))
      closeTime := dGet ((dates.drop 1).head?.bind (fun c => capOf c 1))
      fee := fGet (mGet feeVNPat 1 text)
      pnl := nGet (mGet pnlAnyPat 1 text)
      leverage := lGet (mGet levVNPat 1 text) 100 }

/-- Detector 3, grid or stacked English layout, anchored on the Open
Time caption, with a stacked and a sequential sub-layout. -/
def parseFormatAivoraGrid (text : String) : Option PTrade :=
  if !(hasSub text "Open Time") then none
  else
    let stacked := testPat stackedTestPat text
    some {
      coin := (sGet (if stacked then mGet closeStackPat 3 text
                     else mGet qtyBlockPat 2 text)).orElse
                (fun _ => sGet (mGetA coinUsdtPat 1 text))
      quantity := nGet (if stacked then mGet closeStackPat 2 text
                        else mGet qtyBlockPat 1 text)
      openPrice := nGet (if stacked then mGet hdrStackPat 2 text
                         else mGet openBlockPat 2 text)
      closePrice := nGet (if stacked then mGet closeStackPat 1 text
                          else mGet closeBlockPat 2 text)
      openTime := tGet (if stacked then mGet hdrStackPat 1 text
                        else mGet openBlockPat 1 text)
      closeTime := tGet (if stacked then mGet hdrStackPat 3 text
                         else mGet closeBlockPat 1 text)
      fee := fGet (if stacked then mGet feeStackPat 1 text
                   else mGet feeBlockPat 1 text)
      pnl := nGet (if stacked then mGet feeStackPat 2 text
                   else mGet feeBlockPat 2 text)
      leverage := lGet (mGet levXPat 1 text) 100 }

/-- Record built by the mobile vertical layout detector once its anchor
matched, preferring the closing PnL caption over the position PnL one. -/
def mobileRecord (text : String) : PTrade :=
  { coin := (sGet (mGetA coinUsdtPat 1 text)).orElse
              (fun _ => sGet (mGet coinUnderQtyPat 1 text))
    quantity := nGet (mGet qtyMobilePat 1 text)
    openPrice := nGet (mGet entryPricePat 1 text)
    closePrice := nGet (mGet closePricePat 1 text)
    openTime := tGet (mGet timeOpenedPat 1 text)
    closeTime := tGet (mGet timeClosedPat 1 text)
    fee := fGet (mGet feesOptSPat 1 text)
    pnl := match mGet closingPnlPat 1 text with
           | some s => some (pnum s)
           | none => nGet (mGet posPnlPat 1 text)
    leverage := lGet (mGet levXPat 1 text) 100 }

/-- Detector 4, mobile vertical layout, anchored on the Time Opened
caption. -/
def parseFormatBitunixMobile (text : String) : Option PTrade :=
  if !(hasSub text "Time Opened") then none
  else some (mobileRecord text)

/-- Detector 5, older English fallback layout, anchored on the Opening
Average Price caption in the absence of the Time Opened caption. -/
def parseFormatAivoraEn (text : String) : Option PTrade :=
  if !(hasSub text "Opening Average Price") || hasSub text "Time Opened" then none
  else
    some {
      coin := sGet (mGet volPat 2 text)
      quantity := nGet (mGet volPat 1 text)
      openPrice := nGet (mGet stdOpenPat 1 text)
      closePrice := nGet (mGet stdClosePat 1 text)
      openTime := tGet (mGet isoSearchPat 1 text)
      closeTime := none
      fee := fGet (mGet feesEnPat 1 text)
      pnl := nGet (mGet posPnlPat 1 text)
      leverage := lGet (mGet levXiPat 1 text) 100 }

/-- Detector 6, legacy web layout, anchored on both the Entry Price and
the Time Opened captions. -/
def parseFormatBitunixWeb (text : String) : Option PTrade :=
  if !(hasSub text "Entry Price") || !(hasSub text "Time Opened") then none
  else
    some {
      openPrice := nGet (mGet entryPricePat 1 text)
      closePrice := nGet (mGet exitPricePat 1 text)
      openTime := tGet (mGet openTimeWebPat 1 text)
      pnl := nGet (mGet posPnlPat 1 text)
      leverage := some 100 }

/-- Whether the first character of a list is a digit. -/
def leadDigit (l : List Char) : Bool :=
  match l with
  | c :: _ => c.isDigit
  | [] => false

/-- Detector 1, tabular layout: at least eight tab-separated fields, the
first beginning with a digit after trimming, mapped positionally. -/
def parseFormatTabular (text : String) : Option PTrade :=
  let parts := splitCh '\t' text.data
  if parts.length < 8 then none
  else if !leadDigit (trimWs (parts.getD 0 [])) then none
  else
    some {
      coin := some (String.mk (trimWs (parts.getD 5 [])))
      quantity := some (pnum (parts.getD 4 []))
      openPrice := some (pnum (parts.getD 0 []))
      closePrice := some (pnum (parts.getD 1 []))
      openTime := some (parseCustomDate (String.mk (parts.getD 2 [])))
      closeTime := some (parseCustomDate (String.mk (parts.getD 3 [])))
      fee := some (jabs (pnum (parts.getD 6 [])))
      pnl := some (pnum (parts.getD 7 []))
      leverage := some 100 }

/-- Truthiness of a possibly-absent JavaScript number: present, a
number, and nonzero. -/
def jTruthy : Option JNum → Bool
  | some (some q) => decide (q ≠ 0)
  | _ => false

/-- Truthiness of a possibly-absent string: present and nonempty. -/
def sTruthy : Option String → Bool
  | some s => !s.data.isEmpty
  | none => false

/-- The acceptance gate of the dispatcher: a truthy open price together
with a truthy quantity or a truthy symbol. -/
def gate (p : PTrade) : Bool :=
  jTruthy p.openPrice && (jTruthy p.quantity || sTruthy p.coin)

/-- The default merge of the dispatcher: the partial record is spread
over the default template; the clock reading fills the open time only
when the detector never assigned that key. -/
def mergeTrade (p : PTrade) (now : String) : Trade :=
  { uid := ""
    leverage := p.leverage.getD 100
    openPrice := p.openPrice.getD (some 0)
    openTime := match p.openTime with
                | none => some now
                | some v => v
    quantity := p.quantity.getD (some 0)
    coin := p.coin.getD "ETH"
    fee := p.fee.getD (some 0)
    pnl := p.pnl.getD (some 0)
    closePrice := p.closePrice
    closeTime := p.closeTime }

/-- Result of the dispatcher: a merged record from the cascade, or a
deferral to the external AI collaborator carrying the text it is given. -/
inductive ParseResult where
  | parsed (t : Trade)
  | gemini (text : String)
  deriving DecidableEq

/-- The short-circuiting detector chain of the dispatcher: the result of
the first detector returning a record. -/
def detectorChain (text : String) : Option PTrade :=
  match parseFormatTabular text with
  | some p => some p
  | none =>
  match parseFormatVN text with
  | some p => some p
  | none =>
  match parseFormatAivoraGrid text with
  | some p => some p
  | none =>
  match parseFormatBitunixMobile text with
  | some p => some p
  | none =>
  match parseFormatAivoraEn text with
  | some p => some p
  | none => parseFormatBitunixWeb text

/-- The cascade dispatcher: first detector result, gated once; on a
gate-passing result the default merge is returned, otherwise the raw
text is deferred to the AI collaborator. The clock reading consumed by
the default template is the explicit second argument. -/
def parseTradeTextSmart (text now : String) : ParseResult :=
  match detectorChain text with
  | some p => if gate p then .parsed (mergeTrade p now) else .gemini text
  | none => .gemini text

def gateFails (o : Option PTrade) : Bool :=
  match o with
  | none => true
  | some p => !gate p

def gatePasses (o : Option PTrade) : Bool :=
  match o with
  | none => false
  | some p => gate p

def detectors : List (String → Option PTrade) :=
  [parseFormatTabular, parseFormatVN, parseFormatAivoraGrid,
   parseFormatBitunixMobile, parseFormatAivoraEn, parseFormatBitunixWeb]

/-- Fee projection of a dispatcher result, absent on the AI path. -/
def getFee : ParseResult → Option JNum
  | .parsed r => some r.fee
  | .gemini _ => none

/-- PnL projection of a detector result. -/
def pnlOf (o : Option PTrade) : Option (Option JNum) := o.map (fun p => p.pnl)

/-- Erase the open time of a parsed result, for comparing runs taken at
different clock readings. -/
def eraseOpenTime : ParseResult → ParseResult
  | .parsed r => .parsed { r with openTime := none }
  | .gemini t => .gemini t

/-- Concrete text whose localized anchor matches with a gate-failing
record while the mobile detector would produce a gate-passing one. -/
def vnMixedText : String :=
  "Giá Mở x\nETHUSDT\nTime Opened\n2025-01-02 03:04:05\nEntry Price\n2000\nMax held\n5\nFees\n-1\nClosing PnL\n7"

/-- Concrete gate-passing localized text with no date caption, so the
merged record receives the clock reading as its open time. -/
def vnNoDateText : String := "Giá Mở\n5\nCoin\nETH"

/-- The tabular example row of the specification. -/
def exampleRow : String :=
  "2860,90\t2827,45\t1/12/2025 10:19:16\t1/12/2025 10:39:12\t15,00\tETH\t42,66\t-501,75"

/-- A row of nine tab-separated fields. -/
def nineFieldRow : String := "1\t2\t3\t4\t5\tX\t6\t7\t9"

/-- A tabular row carrying a negative fee field. -/
def negFeeRow : String := "5\t6\tx\ty\t7\tETH\t-3\t2"

/-- A mobile layout text containing both PnL captions. -/
def bothPnlText : String := "Time Opened\nPosition PnL\n5\nClosing PnL\n9"

/-- C1 counterexample: on the mixed text the localized detector anchors
with a gate-failing record and the dispatcher defers to the AI
collaborator at once, even though the lower-priority mobile detector
would have produced a gate-passing record. -/
theorem claim1_counterexample :
    parseTradeTextSmart vnMixedText "" = ParseResult.gemini vnMixedText ∧
    gatePasses (parseFormatBitunixMobile vnMixedText) = true := by
  decide

/-- C1 (amended): when the first detector returning a record fails the
gate, or no detector returns one, the dispatcher falls back to the AI
collaborator directly; lower-priority detectors are not retried, and the
gate is applied once, to the first non-null detector result. -/
theorem claim1_theorem (t now : String)
    (h : gateFails (detectorChain t) = true) :
    parseTradeTextSmart t now = ParseResult.gemini t := by
  unfold parseTradeTextSmart
  cases hc : detectorChain t with
  | none => rfl
  | some p =>
    rw [hc] at h
    simp only [gateFails, Bool.not_eq_true'] at h
    simp [h]

/-- Witness for the amended C1 theorem at a concrete input. -/
theorem claim1_witness :
    parseTradeTextSmart "Giá Mở" "" = ParseResult.gemini "Giá Mở" :=
  claim1_theorem "Giá Mở" "" (by decide)

/-- C5 counterexample: the same gate-passing input run at two clock
readings yields two different records, because the default template
fills the missing open time with the current time. -/
theorem claim5_counterexample :
    parseTradeTextSmart vnNoDateText "AAA" ≠ parseTradeTextSmart vnNoDateText "BBB" := by
  decide

/-- C5 (amended): the cascade is a pure function of the text and the
clock reading, and two runs at different clock readings agree everywhere
except possibly in the open time field of a parsed record. -/
theorem claim5_theorem (t n1 n2 : String) :
    eraseOpenTime (parseTradeTextSmart t n1) = eraseOpenTime (parseTradeTextSmart t n2) := by
  unfold parseTradeTextSmart
  cases hc : detectorChain t with
  | none => rfl
  | some p =>
    cases hg : gate p with
    | false => simp [hg]
    | true => simp [hg, eraseOpenTime, mergeTrade]

/-- C7: the meridiem conversion of the date normalizer (the afternoon
token adds 12 unless the hour is at least 12, the morning token maps
hour 12 to 0), and the zero-padded canonical renderings of the spec
examples. -/
theorem claim7_theorem :
    (∀ (h : Nat) (m : List Char), m.map upAscii = ['C', 'H'] → h < 12 →
        adjustHour h (some m) = h + 12) ∧
    (∀ (h : Nat) (m : List Char), m.map upAscii = ['C', 'H'] → 12 ≤ h →
        adjustHour h (some m) = h) ∧
    (∀ (m : List Char), m.map upAscii = ['S', 'A'] → adjustHour 12 (some m) = 0) ∧
    (∀ (h : Nat) (m : List Char), m.map upAscii = ['S', 'A'] → h ≠ 12 →
        adjustHour h (some m) = h) ∧
    parseCustomDate "17/12/2025 10:16:52 SA" = some "2025-12-17T10:16:52" ∧
    parseCustomDate "17/12/2025 10:16:52 CH" = some "2025-12-17T22:16:52" ∧
    parseCustomDate "1/2/2025 3:04:05" = some "2025-02-01T03:04:05" := by
  refine ⟨?_, ?_, ?_, ?_, by decide, by decide, by decide⟩
  · intro h m hm hh
    simp [adjustHour, hm, hh]
  · intro h m hm hh
    simp [adjustHour, hm, Nat.not_lt.mpr hh]
  · intro m hm
    simp [adjustHour, hm]
  · intro h m hm hh
    simp [adjustHour, hm, hh]

/-- Witness for the C7 theorem at a concrete lowercase afternoon token. -/
theorem claim7_witness :
    (['c', 'h'].map upAscii = ['C', 'H'] ∧ 10 < 12) ∧
    adjustHour 10 (some ['c', 'h']) = 22 :=
  ⟨⟨by decide, by decide⟩, claim7_theorem.1 10 ['c', 'h'] (by decide) (by decide)⟩

/-- C8: whenever the mobile anchor is present, the detector takes its
PnL from the closing PnL caption when that caption matches, and falls
back to the position PnL caption only when it does not; on the concrete
text carrying both captions the closing value 9 wins over 5. -/
theorem claim8_theorem :
    (∀ t : String, hasSub t "Time Opened" = true →
      ∃ r, parseFormatBitunixMobile t = some r ∧
        (∀ s, mGet closingPnlPat 1 t = some s → r.pnl = some (pnum s)) ∧
        (mGet closingPnlPat 1 t = none → r.pnl = nGet (mGet posPnlPat 1 t))) ∧
    pnlOf (parseFormatBitunixMobile bothPnlText) = some (some (some 9)) := by
  constructor
  · intro t h
    refine ⟨mobileRecord t, by simp [parseFormatBitunixMobile, h], ?_, ?_⟩
    · intro s hs
      simp [mobileRecord, hs]
    · intro hn
      simp [mobileRecord, hn]
  · decide

/-- Witness for the C8 theorem at the concrete double-caption text. -/
theorem claim8_witness :
    hasSub bothPnlText "Time Opened" = true ∧
    (∃ r, parseFormatBitunixMobile bothPnlText = some r ∧
      (∀ s, mGet closingPnlPat 1 bothPnlText = some s → r.pnl = some (pnum s)) ∧
      (mGet closingPnlPat 1 bothPnlText = none →
        r.pnl = nGet (mGet posPnlPat 1 bothPnlText))) :=
  ⟨by decide, claim8_theorem.1 bothPnlText (by decide)⟩

/-- C4 counterexample: a row of nine tab-separated fields is accepted by
the tabular detector, so the detector does not require exactly eight
fields. -/
theorem claim4_counterexample :
    (parseFormatTabular nineFieldRow).isSome = true ∧
    (splitCh '\t' nineFieldRow.data).length = 9 := by
  decide

/-- C4 (amended): the tabular detector accepts exactly the texts whose
tab split has at least eight fields with a first field that begins with
a digit after trimming, mapping the first eight fields positionally; on
the spec example row it yields the stated prices, times, quantity,
symbol, fee and PnL. -/
theorem claim4_theorem :
    (∀ t : String,
      (parseFormatTabular t).isSome = true ↔
        (8 ≤ (splitCh '\t' t.data).length ∧
         leadDigit (trimWs ((splitCh '\t' t.data).getD 0 [])) = true)) ∧
    parseFormatTabular exampleRow = some {
      coin := some "ETH"
      quantity := some (some 15)
      openPrice := some (some (mkRat 286090 100))
      closePrice := some (some (mkRat 282745 100))
      openTime := some (some "2025-12-01T10:19:16")
      closeTime := some (some "2025-12-01T10:39:12")
      fee := some (some (mkRat 4266 100))
      pnl := some (some (mkRat (-50175) 100))
      leverage := some 100 } := by
  constructor
  · intro t
    simp only [parseFormatTabular]
    split
    · next h =>
      simp only [Option.isSome_none, Bool.false_eq_true, false_iff, not_and]
      intro hlen
      omega
    · next h =>
      split
      · next h2 =>
        simp only [Option.isSome_none, Bool.false_eq_true, false_iff, not_and]
        intro _
        simp only [Bool.not_eq_true'] at h2
        simpa [List.getD] using h2
      · next h2 =>
        simp only [Option.isSome_some, true_iff]
        refine ⟨by omega, ?_⟩
        simp only [Bool.not_eq_true', Bool.not_eq_false] at h2
        simpa [List.getD] using h2
  · decide

/-- Witness for the amended C4 theorem at the spec example row. -/
theorem claim4_witness : (parseFormatTabular exampleRow).isSome = true :=
  (claim4_theorem.1 exampleRow).mpr (by decide)

lemma guardYMD_shape (l : List Char) (h : guardYMD l = true) :
    (l.getD 1 ' ').isDigit = true ∧ l.getD 4 ' ' = '-' := by
  unfold guardYMD at h
  split at h
  · simp only [Bool.and_eq_true] at h
    exact ⟨h.1.1.1.1.1.1.2, rfl⟩
  · exact absurd h (by simp)

lemma guardDMY_shape (l : List Char) (h : guardDMY l = true) :
    (l.getD 1 ' ').isDigit = true ∧ (l.getD 4 ' ').isDigit = true := by
  unfold guardDMY at h
  split at h
  · simp only [Bool.and_eq_true] at h
    exact ⟨h.1.1.1.1.1.1.2, h.1.1.1.1.2⟩
  · exact absurd h (by simp)

/-- C10: the date-shape guard of the number normalizer ignores slash
dates with a single-digit day (second character is the slash) and with a
single-digit month (fifth character is the slash), so such tokens fall
through to digit concatenation; concretely the single-digit-day token
parses to the concatenation of its digits while the two-digit-day token
and the dashed date parse to 0. -/
theorem claim10_theorem :
    (∀ (c : Char) (r : List Char), c.isDigit = true →
        dateGuard (c :: '/' :: r) = false) ∧
    (∀ (a b c : Char) (r : List Char), a.isDigit = true → b.isDigit = true →
        c.isDigit = true → dateGuard (a :: b :: '/' :: c :: '/' :: r) = false) ∧
    parseNumber "1/12/2025 10:19:16" = some 1122025101916 ∧
    parseNumber "12/12/2025 10:19:16" = some 0 ∧
    parseNumber "2025-12-17" = some 0 := by
  refine ⟨?_, ?_, by decide, by decide, by decide⟩
  · intro c r hc
    unfold dateGuard
    cases hY : guardYMD (c :: '/' :: r) with
    | true =>
      have sh := (guardYMD_shape _ hY).1
      rw [show (c :: '/' :: r).getD 1 ' ' = '/' from rfl] at sh
      exact absurd sh (by decide)
    | false =>
      cases hD : guardDMY (c :: '/' :: r) with
      | true =>
        have sh := (guardDMY_shape _ hD).1
        rw [show (c :: '/' :: r).getD 1 ' ' = '/' from rfl] at sh
        exact absurd sh (by decide)
      | false => rfl
  · intro a b c r ha hb hc
    unfold dateGuard
    cases hY : guardYMD (a :: b :: '/' :: c :: '/' :: r) with
    | true =>
      have sh := (guardYMD_shape _ hY).2
      rw [show (a :: b :: '/' :: c :: '/' :: r).getD 4 ' ' = '/' from rfl] at sh
      exact absurd sh (by decide)
    | false =>
      cases hD : guardDMY (a :: b :: '/' :: c :: '/' :: r) with
      | true =>
        have sh := (guardDMY_shape _ hD).2
        rw [show (a :: b :: '/' :: c :: '/' :: r).getD 4 ' ' = '/' from rfl] at sh
        exact absurd sh (by decide)
      | false => rfl

/-- Witness for the C10 theorem at a concrete single-digit-day token. -/
theorem claim10_witness :
    ('1').isDigit = true ∧ dateGuard ('1' :: '/' :: "12/2025".data) = false :=
  ⟨by decide, claim10_theorem.1 '1' "12/2025".data (by decide)⟩

lemma lastIdxAux_isSome (c : Char) (l : List Char) :
    (lastIdxAux c l).isSome = true ↔ c ∈ l := by
  induction l with
  | nil => simp [lastIdxAux]
  | cons x t ih =>
    simp only [lastIdxAux]
    cases h : lastIdxAux c t with
    | some i =>
      simp only [Option.isSome_some, true_iff]
      exact List.mem_cons_of_mem x (ih.mp (by simp [h]))
    | none =>
      show (if (x == c) = true then some 0 else none).isSome = true ↔ c ∈ x :: t
      split
      · next hx =>
        have hx2 : x = c := by simpa using hx
        refine iff_of_true rfl ?_
        simp [hx2]
      · next hx =>
        have hx2 : ¬ x = c := by simpa using hx
        refine iff_of_false (by simp) ?_
        intro hmem
        rcases List.mem_cons.mp hmem with h1 | h2
        · exact hx2 h1.symm
        · have := ih.mpr h2
          simp [h] at this

lemma lastIdx_neg (c : Char) (l : List Char) (h : c ∉ l) : lastIdx c l = -1 := by
  unfold lastIdx
  cases hx : lastIdxAux c l with
  | none => rfl
  | some i =>
    exact absurd ((lastIdxAux_isSome c l).mp (by simp [hx])) h

lemma lastIdx_pos (c : Char) (l : List Char) (h : c ∈ l) : lastIdx c l > -1 := by
  have hs := (lastIdxAux_isSome c l).mpr h
  unfold lastIdx
  cases hx : lastIdxAux c l with
  | none => simp [hx] at hs
  | some i =>
    show (i : Int) > -1
    omega

/-- C3: when the cleaned token contains commas and no dot, the comma is
treated as a decimal point (all commas become dots) exactly when the
digit run after the final comma has length other than three, and as a
thousands separator (all commas removed) when that run has length
exactly three; concretely 2930,63 parses to 2930.63 and 1,234 to 1234. -/
theorem claim3_theorem :
    (∀ l : List Char, ',' ∈ l → '.' ∉ l →
        (((splitCh ',' l).getLast?.getD []).all Char.isDigit) = true →
        ((splitCh ',' l).getLast?.getD []).length ≠ 3 →
        sepHandle l = l.map (fun c => if c == ',' then '.' else c)) ∧
    (∀ l : List Char, ',' ∈ l → '.' ∉ l →
        (((splitCh ',' l).getLast?.getD []).all Char.isDigit) = true →
        ((splitCh ',' l).getLast?.getD []).length = 3 →
        sepHandle l = l.filter (fun c => !(c == ','))) ∧
    parseNumber "2930,63" = some (mkRat 293063 100) ∧
    parseNumber "1,234" = some 1234 := by
  refine ⟨?_, ?_, by decide, by decide⟩
  · intro l hm hd _ hlen
    have hld : lastIdx '.' l = -1 := lastIdx_neg '.' l hd
    have hlc : lastIdx ',' l > -1 := lastIdx_pos ',' l hm
    simp only [sepHandle, hld]
    rw [if_neg (by omega)]
    rw [if_pos hlc]
    rw [if_pos hlen]
  · intro l hm hd _ hlen
    have hld : lastIdx '.' l = -1 := lastIdx_neg '.' l hd
    have hlc : lastIdx ',' l > -1 := lastIdx_pos ',' l hm
    simp only [sepHandle, hld]
    rw [if_neg (by omega)]
    rw [if_pos hlc]
    rw [if_neg (by omega)]

/-- Witness for the C3 theorem at the concrete decimal-comma token. -/
theorem claim3_witness :
    (',' ∈ "2930,63".data ∧ '.' ∉ "2930,63".data) ∧
    sepHandle "2930,63".data =
      "2930,63".data.map (fun c => if c == ',' then '.' else c) :=
  ⟨⟨by decide, by decide⟩,
   claim3_theorem.1 "2930,63".data (by decide) (by decide) (by decide) (by decide)⟩

lemma pfMag_cons_digit (c : Char) (t : List Char) (h : c.isDigit = true) :
    (pfMag (c :: t)).isSome = true := by
  simp only [pfMag, List.takeWhile_cons, h, if_true]
  split
  · rw [if_neg (by simp)]
    simp
  · rw [if_neg (by simp)]
    simp

lemma parseFloat_lead (l : List Char) (h : leadDigit l = true) :
    (parseFloat l).isSome = true := by
  cases l with
  | nil => simp [leadDigit] at h
  | cons c t =>
    simp only [leadDigit] at h
    have h1 : ¬ ((c :: t).head? = some '-') := by
      simp only [List.head?_cons, Option.some.injEq]
      intro e
      rw [e] at h
      exact absurd h (by decide)
    have h2 : ¬ ((c :: t).head? = some '+') := by
      simp only [List.head?_cons, Option.some.injEq]
      intro e
      rw [e] at h
      exact absurd h (by decide)
    simp only [parseFloat]
    rw [if_neg h1, if_neg h2]
    exact pfMag_cons_digit c t h

lemma sepHandle_lead (l : List Char) (h : leadDigit l = true) :
    leadDigit (sepHandle l) = true := by
  cases l with
  | nil => simp [leadDigit] at h
  | cons c t =>
    simp only [leadDigit] at h
    have hcne : c ≠ ',' := by
      intro e
      rw [e] at h
      exact absurd h (by decide)
    have hdne : c ≠ '.' := by
      intro e
      rw [e] at h
      exact absurd h (by decide)
    simp only [sepHandle]
    split
    · split
      · simp [List.filter_cons, replFirst, leadDigit, hcne, hdne, h]
      · simp [List.filter_cons, leadDigit, hcne, h]
    · split
      · split
        · simp [List.map_cons, leadDigit, hcne, h]
        · simp [List.filter_cons, leadDigit, hcne, h]
      · simpa [leadDigit] using h

/-- C2 counterexample: an input stripping to an empty residue makes the
number normalizer return the not-a-number value, refuting the claim that
it never does so. -/
theorem claim2_counterexample : parseNumber "abc" = none ∧ "abc" ≠ "" := by
  decide

/-- C2 (amended): the number normalizer returns 0 for empty input, and
it never returns the not-a-number value for any input whose stripped
residue begins with a digit; an input whose residue has no leading digit
can produce not-a-number. -/
theorem claim2_theorem :
    parseNumber "" = some 0 ∧
    (∀ s : String, leadDigit (stripNum s) = true → (parseNumber s).isSome = true) := by
  constructor
  · decide
  · intro s h
    simp only [parseNumber]
    split
    · simp
    · split
      · simp
      · cases hc : stripNum s with
        | nil =>
          rw [hc] at h
          simp [leadDigit] at h
        | cons c t =>
          rw [hc] at h
          simp only [leadDigit] at h
          have hP : ¬ ((c :: t).head? = some '-') := by
            simp only [List.head?_cons, Option.some.injEq]
            intro e
            rw [e] at h
            exact absurd h (by decide)
          simp only [hP, if_false]
          have hlead := sepHandle_lead (c :: t) (by simp [leadDigit, h])
          have hpf := parseFloat_lead _ hlead
          cases hval : parseFloat (sepHandle (c :: t)) with
          | none =>
            rw [hval] at hpf
            simp at hpf
          | some q => simp [hval]

/-- Witness for the amended C2 theorem at a concrete currency token. -/
theorem claim2_witness :
    leadDigit (stripNum "$1.5") = true ∧ (parseNumber "$1.5").isSome = true :=
  ⟨by decide, claim2_theorem.2 "$1.5" (by decide)⟩

/-- C6: when every detector either returns no record or returns one
failing the gate, the dispatcher defers exactly once to the AI
collaborator with the unmodified original text, whose record the model
returns unchanged. -/
theorem claim6_theorem (t now : String)
    (h : detectors.all (fun d => gateFails (d t)) = true) :
    parseTradeTextSmart t now = ParseResult.gemini t := by
  simp only [detectors, List.all_cons, List.all_nil, Bool.and_eq_true, and_true] at h
  obtain ⟨h1, h2, h3, h4, h5, h6⟩ := h
  unfold parseTradeTextSmart detectorChain
  cases e1 : parseFormatTabular t with
  | some p =>
    rw [e1] at h1
    simp only [gateFails, Bool.not_eq_true'] at h1
    simp [h1]
  | none =>
  cases e2 : parseFormatVN t with
  | some p =>
    rw [e2] at h2
    simp only [gateFails, Bool.not_eq_true'] at h2
    simp [h2]
  | none =>
  cases e3 : parseFormatAivoraGrid t with
  | some p =>
    rw [e3] at h3
    simp only [gateFails, Bool.not_eq_true'] at h3
    simp [h3]
  | none =>
  cases e4 : parseFormatBitunixMobile t with
  | some p =>
    rw [e4] at h4
    simp only [gateFails, Bool.not_eq_true'] at h4
    simp [h4]
  | none =>
  cases e5 : parseFormatAivoraEn t with
  | some p =>
    rw [e5] at h5
    simp only [gateFails, Bool.not_eq_true'] at h5
    simp [h5]
  | none =>
  cases e6 : parseFormatBitunixWeb t with
  | some p =>
    rw [e6] at h6
    simp only [gateFails, Bool.not_eq_true'] at h6
    simp [h6]
  | none => rfl

/-- Witness for the C6 theorem at a concrete anchor-free text. -/
theorem claim6_witness :
    parseTradeTextSmart "hello" "" = ParseResult.gemini "hello" :=
  claim6_theorem "hello" "" (by decide)

lemma jabs_nonneg (x : JNum) (q : ℚ) (h : jabs x = some q) : 0 ≤ q := by
  cases x with
  | none => simp [jabs] at h
  | some v =>
    simp only [jabs, Option.map_some'] at h
    injection h with h
    split at h
    · next hv =>
      rw [← h]
      exact neg_nonneg.mpr (le_of_lt hv)
    · next hv =>
      rw [← h]
      exact not_lt.mp hv

lemma fee_fGet (o : Option (List Char)) (q : ℚ)
    (h : (fGet o).getD (some 0) = some q) : 0 ≤ q := by
  cases o with
  | none =>
    simp [fGet] at h
    exact h ▸ le_refl 0
  | some s =>
    have hs : jabs (pnum s) = some q := by simpa [fGet] using h
    exact jabs_nonneg _ _ hs

lemma feeOk_tabular (t : String) (p : PTrade) (hp : parseFormatTabular t = some p)
    (q : ℚ) (h : p.fee.getD (some 0) = some q) : 0 ≤ q := by
  simp only [parseFormatTabular] at hp
  split at hp
  · exact absurd hp (by simp)
  · split at hp
    · exact absurd hp (by simp)
    · injection hp with hp
      subst hp
      have hs : jabs (pnum ((splitCh '\t' t.data).getD 6 [])) = some q := by
        simpa using h
      exact jabs_nonneg _ _ hs

lemma feeOk_vn (t : String) (p : PTrade) (hp : parseFormatVN t = some p)
    (q : ℚ) (h : p.fee.getD (some 0) = some q) : 0 ≤ q := by
  simp only [parseFormatVN] at hp
  split at hp
  · exact absurd hp (by simp)
  · injection hp with hp
    subst hp
    exact fee_fGet _ q h

lemma feeOk_grid (t : String) (p : PTrade) (hp : parseFormatAivoraGrid t = some p)
    (q : ℚ) (h : p.fee.getD (some 0) = some q) : 0 ≤ q := by
  simp only [parseFormatAivoraGrid] at hp
  split at hp
  · exact absurd hp (by simp)
  · injection hp with hp
    subst hp
    exact fee_fGet _ q h

lemma feeOk_mobile (t : String) (p : PTrade) (hp : parseFormatBitunixMobile t = some p)
    (q : ℚ) (h : p.fee.getD (some 0) = some q) : 0 ≤ q := by
  simp only [parseFormatBitunixMobile] at hp
  split at hp
  · exact absurd hp (by simp)
  · injection hp with hp
    subst hp
    simp only [mobileRecord] at h
    exact fee_fGet _ q h

lemma feeOk_en (t : String) (p : PTrade) (hp : parseFormatAivoraEn t = some p)
    (q : ℚ) (h : p.fee.getD (some 0) = some q) : 0 ≤ q := by
  simp only [parseFormatAivoraEn] at hp
  split at hp
  · exact absurd hp (by simp)
  · injection hp with hp
    subst hp
    exact fee_fGet _ q h

lemma feeOk_web (t : String) (p : PTrade) (hp : parseFormatBitunixWeb t = some p)
    (q : ℚ) (h : p.fee.getD (some 0) = some q) : 0 ≤ q := by
  simp only [parseFormatBitunixWeb] at hp
  split at hp
  · exact absurd hp (by simp)
  · injection hp with hp
    subst hp
    simp at h
    exact h ▸ le_refl 0

lemma chain_cases (t : String) (p : PTrade) (hc : detectorChain t = some p) :
    parseFormatTabular t = some p ∨ parseFormatVN t = some p ∨
    parseFormatAivoraGrid t = some p ∨ parseFormatBitunixMobile t = some p ∨
    parseFormatAivoraEn t = some p ∨ parseFormatBitunixWeb t = some p := by
  unfold detectorChain at hc
  cases e1 : parseFormatTabular t with
  | some p1 =>
    rw [e1] at hc
    exact Or.inl hc
  | none =>
  rw [e1] at hc
  cases e2 : parseFormatVN t with
  | some p1 =>
    rw [e2] at hc
    exact Or.inr (Or.inl hc)
  | none =>
  rw [e2] at hc
  cases e3 : parseFormatAivoraGrid t with
  | some p1 =>
    rw [e3] at hc
    exact Or.inr (Or.inr (Or.inl hc))
  | none =>
  rw [e3] at hc
  cases e4 : parseFormatBitunixMobile t with
  | some p1 =>
    rw [e4] at hc
    exact Or.inr (Or.inr (Or.inr (Or.inl hc)))
  | none =>
  rw [e4] at hc
  cases e5 : parseFormatAivoraEn t with
  | some p1 =>
    rw [e5] at hc
    exact Or.inr (Or.inr (Or.inr (Or.inr (Or.inl hc))))
  | none =>
  rw [e5] at hc
  exact Or.inr (Or.inr (Or.inr (Or.inr (Or.inr hc))))

/-- C9: in every record produced by the cascade path of the dispatcher,
a defined fee value is non-negative, whatever sign the fee carried in
the source text, because every detector wraps its parsed fee in an
absolute value and the default fee is 0. -/
theorem claim9_theorem (t now : String) (q : ℚ)
    (h : getFee (parseTradeTextSmart t now) = some (some q)) : 0 ≤ q := by
  unfold parseTradeTextSmart at h
  cases hc : detectorChain t with
  | none =>
    rw [hc] at h
    have h2 : getFee (ParseResult.gemini t) = some (some q) := h
    simp [getFee] at h2
  | some p =>
    rw [hc] at h
    have h2 : getFee (if gate p = true then ParseResult.parsed (mergeTrade p now)
        else ParseResult.gemini t) = some (some q) := h
    cases hg : gate p with
    | false => simp [hg, getFee] at h2
    | true =>
      simp only [hg, if_true, getFee, Option.some.injEq] at h2
      have hfee : p.fee.getD (some 0) = some q := by
        rw [← h2]
        simp [mergeTrade]
      rcases chain_cases t p hc with h1 | h2 | h3 | h4 | h5 | h6
      · exact feeOk_tabular t p h1 q hfee
      · exact feeOk_vn t p h2 q hfee
      · exact feeOk_grid t p h3 q hfee
      · exact feeOk_mobile t p h4 q hfee
      · exact feeOk_en t p h5 q hfee
      · exact feeOk_web t p h6 q hfee

/-- Witness for the C9 theorem at a concrete row with a negative fee. -/
theorem claim9_witness :
    getFee (parseTradeTextSmart negFeeRow "") = some (some 3) ∧ 0 ≤ (3 : ℚ) :=
  ⟨by decide, claim9_theorem negFeeRow "" 3 (by decide)⟩
